import Mathlib

/-!
Verification of the holiday / business-day module `business_days.py`.

Shallow embedding conventions:
* A calendar date (Python `datetime` at midnight) is a day number (`Nat`):
  the count of days since 0000-03-01 in the proleptic Gregorian calendar,
  computed by `daysFromCivil` (the standard civil-calendar algorithm).
* `weekday n` matches Python `date.weekday()`: Monday = 0, ..., Sunday = 6.
* `datetime.strptime(s, "%Y%m%d")` is embedded by `strptimeYMD`, which accepts
  exactly an 8-digit string with a valid year/month/day (the strict 4-2-2
  digit form; every value appearing in the repository data has that shape).
  A raised `ValueError` is embedded as `none`.
* The module-level mutable globals (`__holidays`, `__cache`, `__min_year`,
  `__max_year`, `__current_locale`) are gathered in a `BDState` record that
  is threaded explicitly; a Python exception escaping a function is embedded
  by an `Option` result (`none` = the call raised).
* The Python `set` `__cache` is embedded as a duplicate-free-by-construction
  `List Nat`; only membership is ever observed.
-/

/-- Gregorian leap-year test. -/
def isLeap (y : Nat) : Bool :=
  y % 4 == 0 && (y % 100 != 0 || y % 400 == 0)

/-- Number of days in month `m` of year `y` (months are 1-based). -/
def daysInMonth (y m : Nat) : Nat :=
  if m = 2 then (if isLeap y then 29 else 28)
  else if m = 4 || m = 6 || m = 9 || m = 11 then 30
  else 31

/-- Validity of a year/month/day triple, as `datetime` checks it. -/
def validYMD (y m d : Nat) : Bool :=
  1 ≤ m && m ≤ 12 && 1 ≤ d && d ≤ daysInMonth y m

/-- Day number of the civil date `(y, m, d)`: days elapsed since 0000-03-01
(standard civil-from-days algorithm, restricted to nonnegative years). -/
def daysFromCivil (y m d : Nat) : Nat :=
  let y' := if m ≤ 2 then y - 1 else y
  let era := y' / 400
  let yoe := y' - era * 400
  let mp := if 2 < m then m - 3 else m + 9
  let doy := (153 * mp + 2) / 5 + d - 1
  let doe := yoe * 365 + yoe / 4 - yoe / 100 + doy
  era * 146097 + doe

/-- The civil year that day number `n` falls in (inverse direction of
`daysFromCivil`, year component only). Embeds Python `date.year`. -/
def yearOfDayNum (n : Nat) : Nat :=
  let era := n / 146097
  let doe := n % 146097
  let yoe := (doe - doe / 1460 + doe / 36524 - doe / 146096) / 365
  let y' := yoe + era * 400
  let doy := doe - (365 * yoe + yoe / 4 - yoe / 100)
  let mp := (5 * doy + 2) / 153
  let m := if mp < 10 then mp + 3 else mp - 9
  if m ≤ 2 then y' + 1 else y'

/-- Python `date.weekday()`: Monday = 0 through Sunday = 6.
Calibrated so that `daysFromCivil 1970 1 1` (a Thursday) maps to 3. -/
def weekday (n : Nat) : Nat :=
  (n + 2) % 7

/-- Value of a decimal digit character, `none` when not a digit. -/
def digitVal (c : Char) : Option Nat :=
  if c.isDigit then some (c.toNat - 48) else none

/-- Value of a list of decimal digit characters, `none` when any is not a
digit. -/
def digitsVal (cs : List Char) : Option Nat :=
  cs.foldl (fun acc c =>
    match acc, digitVal c with
    | some n, some v => some (n * 10 + v)
    | _, _ => none) (some 0)

/-- Embedding of `datetime.strptime(s, "%Y%m%d")`: an 8-digit string with a
valid date yields its day number, anything else is a `ValueError` (`none`). -/
def strptimeYMD (s : String) : Option Nat :=
  match s.toList with
  | [c1, c2, c3, c4, c5, c6, c7, c8] =>
    match digitsVal [c1, c2, c3, c4], digitsVal [c5, c6], digitsVal [c7, c8] with
    | some y, some m, some d =>
      if validYMD y m d then some (daysFromCivil y m d) else none
    | _, _, _ => none
  | _ => none

/-- Embedding of `_Holiday`: `__init__` only stores its four arguments and
cannot raise, so construction is the plain structure constructor. -/
structure Holiday where
  name : String
  type_cd : String
  value : String
  locale : String
deriving DecidableEq, Inhabited, Repr

/-- First half of `_Holiday.__get_date`: the `strptime` call selected by the
type code (`ONCE` uses the stored full date, `RECUR` combines the requested
year with the stored month-day, anything else means January 1 of the
requested year). `none` embeds a query-time `ValueError`. -/
def Holiday.raw_date (h : Holiday) (year : Nat) : Option Nat :=
  if h.type_cd = "ONCE" then strptimeYMD h.value
  else if h.type_cd = "RECUR" then strptimeYMD (toString year ++ h.value)
  else strptimeYMD (toString year ++ "0101")

/-- Embedding of `_Holiday.__get_date(year, effective)`: the parsed date,
advanced by one day when `effective` is set and the date falls on Sunday. -/
def Holiday.get_date (h : Holiday) (year : Nat) (effective : Bool) : Option Nat :=
  (h.raw_date year).map fun date =>
    if effective then (if weekday date = 6 then date + 1 else date) else date

/-- Embedding of `_Holiday.get_effective_date`. -/
def Holiday.get_effective_date (h : Holiday) (year : Nat) : Option Nat :=
  h.get_date year true

/-- Embedding of `_Holiday.get_actual_date`. -/
def Holiday.get_actual_date (h : Holiday) (year : Nat) : Option Nat :=
  h.get_date year false

/-- The module-level mutable state of `business_days.py`: the loaded holiday
definitions `__holidays`, the excluded-date set `__cache`, the known year span
`__min_year`/`__max_year`, and the active locale `__current_locale`. -/
structure BDState where
  holidays : List Holiday
  cache : List Nat
  min_year : Nat
  max_year : Nat
  current_locale : String
deriving DecidableEq, Inhabited, Repr

/-- Set insertion for the embedded `__cache` (`set.add`). -/
def insertDate (d : Nat) (c : List Nat) : List Nat :=
  if d ∈ c then c else d :: c

/-- Inner loop of `__load_holidays_for_year`: for one year, add every
effective date of each holiday to the cache (`__cache.add(h.get_effective_date(...))`
for each `h` of the filtered list); a query-time `ValueError` propagates. -/
def addHolidaysForYear (hs : List Holiday) (year : Nat) (cache : List Nat) : Option (List Nat) :=
  match hs with
  | [] => some cache
  | h :: t =>
    match h.get_effective_date year with
    | none => none
    | some d => addHolidaysForYear t year (insertDate d cache)

/-- Outer loop of `__load_holidays_for_year`: iterate `addHolidaysForYear`
over the listed years. -/
def expandYears (hs : List Holiday) (years : List Nat) (cache : List Nat) : Option (List Nat) :=
  match years with
  | [] => some cache
  | y :: ys =>
    match addHolidaysForYear hs y cache with
    | none => none
    | some c => expandYears hs ys c

/-- Embedding of `__load_holidays_for_year(year)`: widen the span to include
`year`, then re-expand the whole new span, inserting every active-locale
effective date of each holiday for every year of the span into the cache. -/
def load_holidays_for_year (st : BDState) (year : Nat) : Option BDState :=
  match expandYears (st.holidays.filter fun h => h.locale = st.current_locale)
      ((List.range (max year st.max_year - min year st.min_year + 1)).map
        (min year st.min_year + ·)) st.cache with
  | none => none
  | some c =>
    some { st with min_year := min year st.min_year,
                   max_year := max year st.max_year, cache := c }

/-- Embedding of `__check_year(year)`. -/
def check_year (st : BDState) (year : Nat) : Bool :=
  decide (st.min_year ≤ year) && decide (year ≤ st.max_year)

/-- Embedding of `__check_and_update(year)` (the spec calls it
`ensure_year`): load the span for `year` when it is outside the cached
range, otherwise a no-op. -/
def check_and_update (st : BDState) (year : Nat) : Option BDState :=
  if check_year st year then some st else load_holidays_for_year st year

/-- The boolean computed on the `return` line of `is_business_day`:
`date not in __cache and date.weekday() < 5`. -/
def isBusinessDayTest (cache : List Nat) (date : Nat) : Bool :=
  !decide (date ∈ cache) && decide (weekday date < 5)

/-- Embedding of `is_business_day(date)`: grow the cache for the year of
`date`, then test weekday and cache membership. Returns the post-call state
together with the boolean. -/
def is_business_day (st : BDState) (date : Nat) : Option (BDState × Bool) :=
  match check_and_update st (yearOfDayNum date) with
  | none => none
  | some st' => some (st', isBusinessDayTest st'.cache date)

/-- Embedding of `get_business_days(start_date, end_date)`: grow the cache
for both endpoint years, enumerate `start_date + s` for
`s ∈ range((end_date - start_date).days + 1)` keeping weekdays, remove the
cached dates (set difference), and sort ascending. The `(…).days + 1` count
is computed in `Int` as in Python, so a start after the end yields an empty
enumeration. -/
def get_business_days (st : BDState) (start_date end_date : Nat) : Option (BDState × List Nat) :=
  match check_and_update st (yearOfDayNum start_date) with
  | none => none
  | some st1 =>
    match check_and_update st1 (yearOfDayNum end_date) with
    | none => none
    | some st2 =>
      let n := ((end_date : Int) - (start_date : Int) + 1).toNat
      let enumerated := (List.range n).map (fun s => start_date + s)
      let kept := enumerated.filter fun d => decide (weekday d < 5)
      let dates := (kept.filter fun d => !decide (d ∈ st2.cache)).dedup
      some (st2, dates.insertionSort (· ≤ ·))

/-- Ordering used by Python `list.sort()` on `(datetime, str)` pairs:
lexicographic on the date, then the name. -/
def holidayPairLe (a b : Nat × String) : Prop :=
  a.1 < b.1 ∨ (a.1 = b.1 ∧ ¬ b.2 < a.2)

instance : DecidableRel holidayPairLe := fun a b => by
  unfold holidayPairLe; infer_instance

/-- The comprehension of `get_holidays`: for each definition compute its
actual date (a `ValueError` propagates), keep the `(date, name)` pair when
the actual date falls in `year` and the locale matches. -/
def holidayPairs (hs : List Holiday) (locale : String) (year : Nat) : Option (List (Nat × String)) :=
  match hs with
  | [] => some []
  | h :: t =>
    match h.get_actual_date year with
    | none => none
    | some d =>
      match holidayPairs t locale year with
      | none => none
      | some rest =>
        if yearOfDayNum d = year ∧ h.locale = locale then (d, h.name) :: rest else rest

/-- Embedding of `get_holidays(year)`: grow the cache for `year`, then return
the sorted, duplicate-free `(actual date, name)` pairs of the active locale
whose actual date falls in `year`. -/
def get_holidays (st : BDState) (year : Nat) : Option (BDState × List (Nat × String)) :=
  match check_and_update st year with
  | none => none
  | some st' =>
    match holidayPairs st'.holidays st'.current_locale year with
    | none => none
    | some pairs => some (st', pairs.dedup.insertionSort holidayPairLe)

/-- The comprehension of `get_holiday_effective_dates`: effective dates of
the active locale whose effective date falls in `year`. -/
def holidayEffDates (hs : List Holiday) (locale : String) (year : Nat) : Option (List Nat) :=
  match hs with
  | [] => some []
  | h :: t =>
    match h.get_effective_date year with
    | none => none
    | some d =>
      match holidayEffDates t locale year with
      | none => none
      | some rest =>
        if yearOfDayNum d = year ∧ h.locale = locale then d :: rest else rest

/-- Embedding of `get_holiday_effective_dates(year)`: grow the cache for
`year`, then return the sorted, duplicate-free effective dates of the active
locale that fall in `year`. -/
def get_holiday_effective_dates (st : BDState) (year : Nat) : Option (BDState × List Nat) :=
  match check_and_update st year with
  | none => none
  | some st' =>
    match holidayEffDates st'.holidays st'.current_locale year with
    | none => none
    | some dates => some (st', dates.dedup.insertionSort (· ≤ ·))

/-- Embedding of `__get_previous_business_day_date(date_val)` (reached from
`get_previous_business_day` for date arguments): step back one day at a time
from `date_val` exclusive until `is_business_day` answers true. The source
loop is unbounded (`while True`); the embedding supplies explicit `fuel`,
and `none` covers both exhausted fuel and a propagated error. -/
def get_previous_business_day (fuel : Nat) (st : BDState) (date_val : Nat) : Option (BDState × Nat) :=
  match fuel with
  | 0 => none
  | fuel + 1 =>
    let prev_day := date_val - 1
    match is_business_day st prev_day with
    | none => none
    | some (st', b) =>
      if b then some (st', prev_day) else get_previous_business_day fuel st' prev_day

/-- Embedding of `init(locale, year)`: reset the span bounds to `year`, set
the locale, replace the holiday list with the freshly loaded `source`
(clearing the old list and cache), then expand once for the current calendar
year `todayYear` (`dt.datetime.today().year`, an explicit parameter here). -/
def init (source : List Holiday) (locale : String) (year todayYear : Nat) : Option BDState :=
  let st : BDState :=
    { holidays := source, cache := [], min_year := year, max_year := year,
      current_locale := locale }
  load_holidays_for_year st todayYear

/-- A sequence of `__check_and_update` (`ensure_year`) calls. -/
def ensureYears (st : BDState) (years : List Nat) : Option BDState :=
  match years with
  | [] => some st
  | y :: ys =>
    match check_and_update st y with
    | none => none
    | some st' => ensureYears st' ys

/-- Completeness half of the cache invariant of the spec (section 3): every
effective date of every active-locale definition, for every year of the known span,
is present in the excluded-date cache. -/
def SpanComplete (st : BDState) : Prop :=
  ∀ h ∈ st.holidays, h.locale = st.current_locale →
    ∀ y, st.min_year ≤ y → y ≤ st.max_year →
      ∀ d, h.get_effective_date y = some d → d ∈ st.cache

/-- Soundness half of the cache invariant: every cached date is the
effective date of some active-locale definition evaluated at some year of
the known span (the date itself may fall outside the span, e.g. a Sunday
December 31 observed on January 1 of the following year). -/
def CacheSound (st : BDState) : Prop :=
  ∀ x ∈ st.cache, ∃ h ∈ st.holidays, h.locale = st.current_locale ∧
    ∃ y, st.min_year ≤ y ∧ y ≤ st.max_year ∧ h.get_effective_date y = some x

/-- The single-record holiday source of the spec scenarios:
`"New Year,RECUR,0101,en_US"`. -/
def scenarioSource : List Holiday :=
  [{ name := "New Year", type_cd := "RECUR", value := "0101", locale := "en_US" }]

/-- The state after `init` on the scenario source for locale `en_US` in year
2023: span `[2023, 2023]`, cache holding the one effective date 2023-01-02. -/
def scenarioSt : BDState :=
  (init scenarioSource "en_US" 2023 2023).getD default

/-- The state reached from `scenarioSt` by growing the span to 2025. -/
def scenarioGrownSt : BDState :=
  (check_and_update scenarioSt 2025).getD default

/-- Result of `get_business_days` over 2022-12-28 .. 2023-01-03 in the
scenario state. -/
def scenarioRangeResult : BDState × List Nat :=
  (get_business_days scenarioSt (daysFromCivil 2022 12 28) (daysFromCivil 2023 1 3)).getD default

/-- Final state of the backward walk of `get_previous_business_day` from
2023-01-02 in the scenario state. -/
def scenarioWalkSt : BDState :=
  ((get_previous_business_day 4 scenarioSt (daysFromCivil 2023 1 2)).getD default).1

/-- Holiday source whose single record `"NY,RECUR,1231,en_US"` has a Sunday
actual date on 2023-12-31, so its effective date rolls into 2024. -/
def rolloverSource : List Holiday :=
  [{ name := "NY", type_cd := "RECUR", value := "1231", locale := "en_US" }]

/-- The state after `init` on `rolloverSource` for 2023. -/
def rolloverSt : BDState :=
  (init rolloverSource "en_US" 2023 2023).getD default

/-- Refined embedding of a Python date-or-datetime value, for the claims
about mixed `date`/`datetime` comparisons: `isDatetime` distinguishes
`datetime.datetime` from plain `datetime.date`, `day` is the day number and
`secs` the time of day (0 = midnight; always 0 for a plain date). -/
structure PyDateVal where
  isDatetime : Bool
  day : Nat
  secs : Nat
deriving DecidableEq, Inhabited, Repr

/-- Python equality on date/datetime values: two values compare equal iff
they are of the same kind and agree on every stored component; in
particular a `datetime.date` never equals a `datetime.datetime`. -/
def pyEq (a b : PyDateVal) : Bool :=
  a.isDatetime == b.isDatetime && a.day == b.day && a.secs == b.secs

/-- The shape of every entry the loader puts into `__cache`: `strptime`
returns a `datetime` at midnight and `+ timedelta(1)` preserves midnight. -/
def midnightDatetime (d : Nat) : PyDateVal :=
  { isDatetime := true, day := d, secs := 0 }

/-- The `return` line of `is_business_day` at the refined value level:
`date not in __cache and date.weekday() < 5`, with `in` using `pyEq`. -/
def is_business_day_val (cache : List PyDateVal) (v : PyDateVal) : Bool :=
  !(cache.any fun c => pyEq v c) && decide (weekday v.day < 5)

/-! Helper lemmas about the cache machinery. -/

theorem mem_insertDate {x d : Nat} {c : List Nat} :
    x ∈ insertDate d c ↔ x = d ∨ x ∈ c := by
  by_cases h : d ∈ c
  · simp only [insertDate, if_pos h]
    exact ⟨Or.inr, fun hx => hx.elim (fun e => e ▸ h) id⟩
  · simp [insertDate, if_neg h]

theorem addHolidaysForYear_subset {hs : List Holiday} {y : Nat} {c c' : List Nat}
    (hadd : addHolidaysForYear hs y c = some c') : ∀ x ∈ c, x ∈ c' := by
  induction hs generalizing c with
  | nil =>
    simp only [addHolidaysForYear, Option.some.injEq] at hadd
    subst hadd; exact fun x hx => hx
  | cons h t ih =>
    simp only [addHolidaysForYear] at hadd
    cases heff : h.get_effective_date y with
    | none => rw [heff] at hadd; exact Option.noConfusion hadd
    | some d =>
      rw [heff] at hadd
      exact fun x hx => ih hadd x (mem_insertDate.mpr (Or.inr hx))

theorem addHolidaysForYear_complete {hs : List Holiday} {y : Nat} {c c' : List Nat}
    (hadd : addHolidaysForYear hs y c = some c') :
    ∀ h ∈ hs, ∀ d, h.get_effective_date y = some d → d ∈ c' := by
  induction hs generalizing c with
  | nil => intro h hh; cases hh
  | cons h t ih =>
    simp only [addHolidaysForYear] at hadd
    cases heff : h.get_effective_date y with
    | none => rw [heff] at hadd; exact Option.noConfusion hadd
    | some d0 =>
      rw [heff] at hadd
      intro h' hh' d hd
      rcases List.mem_cons.mp hh' with rfl | ht
      · rw [heff] at hd
        cases hd
        exact addHolidaysForYear_subset hadd d0 (mem_insertDate.mpr (Or.inl rfl))
      · exact ih hadd h' ht d hd

theorem addHolidaysForYear_mem {hs : List Holiday} {y : Nat} {c c' : List Nat}
    (hadd : addHolidaysForYear hs y c = some c') :
    ∀ x ∈ c', x ∈ c ∨ ∃ h ∈ hs, h.get_effective_date y = some x := by
  induction hs generalizing c with
  | nil =>
    simp only [addHolidaysForYear, Option.some.injEq] at hadd
    subst hadd; exact fun x hx => Or.inl hx
  | cons h t ih =>
    simp only [addHolidaysForYear] at hadd
    cases heff : h.get_effective_date y with
    | none => rw [heff] at hadd; exact Option.noConfusion hadd
    | some d =>
      rw [heff] at hadd
      intro x hx
      rcases ih hadd x hx with hxc | ⟨h', hh', hd⟩
      · rcases mem_insertDate.mp hxc with rfl | hxc'
        · exact Or.inr ⟨h, List.mem_cons_self _ _, heff⟩
        · exact Or.inl hxc'
      · exact Or.inr ⟨h', List.mem_cons_of_mem _ hh', hd⟩

theorem expandYears_subset {hs : List Holiday} {ys : List Nat} {c c' : List Nat}
    (hex : expandYears hs ys c = some c') : ∀ x ∈ c, x ∈ c' := by
  induction ys generalizing c with
  | nil =>
    simp only [expandYears, Option.some.injEq] at hex
    subst hex; exact fun x hx => hx
  | cons y ys ih =>
    simp only [expandYears] at hex
    cases hadd : addHolidaysForYear hs y c with
    | none => rw [hadd] at hex; exact Option.noConfusion hex
    | some c1 =>
      rw [hadd] at hex
      exact fun x hx => ih hex x (addHolidaysForYear_subset hadd x hx)

theorem expandYears_complete {hs : List Holiday} {ys : List Nat} {c c' : List Nat}
    (hex : expandYears hs ys c = some c') :
    ∀ y ∈ ys, ∀ h ∈ hs, ∀ d, h.get_effective_date y = some d → d ∈ c' := by
  induction ys generalizing c with
  | nil => intro y hy; cases hy
  | cons y0 ys ih =>
    simp only [expandYears] at hex
    cases hadd : addHolidaysForYear hs y0 c with
    | none => rw [hadd] at hex; exact Option.noConfusion hex
    | some c1 =>
      rw [hadd] at hex
      intro y hy h hh d hd
      rcases List.mem_cons.mp hy with rfl | hys
      · exact expandYears_subset hex d (addHolidaysForYear_complete hadd h hh d hd)
      · exact ih hex y hys h hh d hd

theorem expandYears_mem {hs : List Holiday} {ys : List Nat} {c c' : List Nat}
    (hex : expandYears hs ys c = some c') :
    ∀ x ∈ c', x ∈ c ∨ ∃ y ∈ ys, ∃ h ∈ hs, h.get_effective_date y = some x := by
  induction ys generalizing c with
  | nil =>
    simp only [expandYears, Option.some.injEq] at hex
    subst hex; exact fun x hx => Or.inl hx
  | cons y0 ys ih =>
    simp only [expandYears] at hex
    cases hadd : addHolidaysForYear hs y0 c with
    | none => rw [hadd] at hex; exact Option.noConfusion hex
    | some c1 =>
      rw [hadd] at hex
      intro x hx
      rcases ih hex x hx with hxc | ⟨y, hy, h, hh, hd⟩
      · rcases addHolidaysForYear_mem hadd x hxc with hxc' | ⟨h, hh, hd⟩
        · exact Or.inl hxc'
        · exact Or.inr ⟨y0, List.mem_cons_self _ _, h, hh, hd⟩
      · exact Or.inr ⟨y, List.mem_cons_of_mem _ hy, h, hh, hd⟩

theorem mem_yearRange {mn mx y : Nat} :
    y ∈ (List.range (mx - mn + 1)).map (mn + ·) ↔ (mn ≤ y ∧ y ≤ mx ∨ (mx < mn ∧ y = mn)) := by
  simp only [List.mem_map, List.mem_range]
  constructor
  · rintro ⟨s, hs, rfl⟩
    omega
  · intro hd
    exact ⟨y - mn, by omega, by omega⟩

theorem load_holidays_for_year_cases {st : BDState} {year : Nat} {st' : BDState}
    (hl : load_holidays_for_year st year = some st') :
    ∃ c, expandYears (st.holidays.filter fun h => h.locale = st.current_locale)
        ((List.range (max year st.max_year - min year st.min_year + 1)).map
          (min year st.min_year + ·)) st.cache = some c ∧
      st' = { st with min_year := min year st.min_year,
                      max_year := max year st.max_year, cache := c } := by
  unfold load_holidays_for_year at hl
  cases hex : expandYears (st.holidays.filter fun h => h.locale = st.current_locale)
      ((List.range (max year st.max_year - min year st.min_year + 1)).map
        (min year st.min_year + ·)) st.cache with
  | none => rw [hex] at hl; exact Option.noConfusion hl
  | some c =>
    rw [hex] at hl
    simp only [Option.some.injEq] at hl
    exact ⟨c, rfl, hl.symm⟩

theorem load_holidays_for_year_fields {st : BDState} {year : Nat} {st' : BDState}
    (hl : load_holidays_for_year st year = some st') :
    st'.min_year = min year st.min_year ∧ st'.max_year = max year st.max_year ∧
    st'.holidays = st.holidays ∧ st'.current_locale = st.current_locale ∧
    ∀ x ∈ st.cache, x ∈ st'.cache := by
  obtain ⟨c, hex, rfl⟩ := load_holidays_for_year_cases hl
  exact ⟨rfl, rfl, rfl, rfl, expandYears_subset hex⟩

theorem load_holidays_for_year_complete {st : BDState} {year : Nat} {st' : BDState}
    (hl : load_holidays_for_year st year = some st') : SpanComplete st' := by
  obtain ⟨c, hex, rfl⟩ := load_holidays_for_year_cases hl
  intro h hh hloc y hy1 hy2 d hd
  simp only at hh hloc hy1 hy2 ⊢
  refine expandYears_complete hex y ?_ h ?_ d hd
  · exact mem_yearRange.mpr (Or.inl ⟨hy1, hy2⟩)
  · exact List.mem_filter.mpr ⟨hh, by simpa using hloc⟩

theorem load_holidays_for_year_sound {st : BDState} {year : Nat} {st' : BDState}
    (hsound : CacheSound st)
    (hl : load_holidays_for_year st year = some st') : CacheSound st' := by
  obtain ⟨c, hex, rfl⟩ := load_holidays_for_year_cases hl
  intro x hx
  simp only at hx ⊢
  rcases expandYears_mem hex x hx with hxc | ⟨y, hy, h, hh, hd⟩
  · obtain ⟨h, hh, hloc, y, hy1, hy2, hd⟩ := hsound x hxc
    exact ⟨h, hh, hloc, y, by omega, by omega, hd⟩
  · obtain ⟨hh', hloc⟩ := List.mem_filter.mp hh
    rcases mem_yearRange.mp hy with ⟨hy1, hy2⟩ | ⟨hlt, rfl⟩
    · exact ⟨h, hh', by simpa using hloc, y, hy1, hy2, hd⟩
    · exact ⟨h, hh', by simpa using hloc, min year st.min_year, le_refl _, by omega, hd⟩

theorem check_and_update_fields {st : BDState} {year : Nat} {st' : BDState}
    (h : check_and_update st year = some st') :
    st'.min_year ≤ st.min_year ∧ st.max_year ≤ st'.max_year ∧
    st'.min_year ≤ year ∧ year ≤ st'.max_year ∧
    st'.holidays = st.holidays ∧ st'.current_locale = st.current_locale ∧
    ∀ x ∈ st.cache, x ∈ st'.cache := by
  unfold check_and_update at h
  by_cases hc : check_year st year = true
  · rw [if_pos hc] at h
    simp only [Option.some.injEq] at h
    subst h
    unfold check_year at hc
    simp only [Bool.and_eq_true, decide_eq_true_eq] at hc
    exact ⟨le_refl _, le_refl _, hc.1, hc.2, rfl, rfl, fun x hx => hx⟩
  · rw [if_neg hc] at h
    obtain ⟨h1, h2, h3, h4, h5⟩ := load_holidays_for_year_fields h
    refine ⟨by omega, by omega, by omega, by omega, h3, h4, h5⟩

theorem check_and_update_inv {st : BDState} {year : Nat} {st' : BDState}
    (hinv : SpanComplete st ∧ CacheSound st)
    (h : check_and_update st year = some st') : SpanComplete st' ∧ CacheSound st' := by
  unfold check_and_update at h
  by_cases hc : check_year st year = true
  · rw [if_pos hc] at h
    simp only [Option.some.injEq] at h
    subst h
    exact hinv
  · rw [if_neg hc] at h
    exact ⟨load_holidays_for_year_complete h, load_holidays_for_year_sound hinv.2 h⟩

theorem ensureYears_inv {st : BDState} {years : List Nat} {st' : BDState}
    (hinv : SpanComplete st ∧ CacheSound st)
    (h : ensureYears st years = some st') : SpanComplete st' ∧ CacheSound st' := by
  induction years generalizing st with
  | nil =>
    simp only [ensureYears, Option.some.injEq] at h
    subst h; exact hinv
  | cons y ys ih =>
    simp only [ensureYears] at h
    cases hc : check_and_update st y with
    | none => rw [hc] at h; exact Option.noConfusion h
    | some st1 =>
      rw [hc] at h
      exact ih (check_and_update_inv hinv hc) h

theorem init_spec {source : List Holiday} {locale : String} {year todayYear : Nat}
    {st : BDState} (h : init source locale year todayYear = some st) :
    st.min_year = min todayYear year ∧ st.max_year = max todayYear year ∧
    st.holidays = source ∧ st.current_locale = locale ∧
    SpanComplete st ∧ CacheSound st := by
  unfold init at h
  have hfields := load_holidays_for_year_fields h
  have hcomplete := load_holidays_for_year_complete h
  have hsound := load_holidays_for_year_sound (fun x hx => absurd hx (List.not_mem_nil x)) h
  exact ⟨hfields.1, hfields.2.1, hfields.2.2.1, hfields.2.2.2.1, hcomplete, hsound⟩

theorem weekday_succ (n : Nat) : weekday (n + 1) = (weekday n + 1) % 7 := by
  unfold weekday
  omega

theorem mem_dayRange {start_date end_date d : Nat} :
    (∃ s, s < ((end_date : Int) - (start_date : Int) + 1).toNat ∧ start_date + s = d) ↔
    (start_date ≤ d ∧ d ≤ end_date) := by
  constructor
  · rintro ⟨s, hs, rfl⟩
    omega
  · intro hd
    exact ⟨d - start_date, by omega, by omega⟩

theorem is_business_day_spec {st : BDState} {date : Nat} {st' : BDState} {b : Bool}
    (h : is_business_day st date = some (st', b)) :
    b = isBusinessDayTest st'.cache date ∧ ∀ x ∈ st.cache, x ∈ st'.cache := by
  unfold is_business_day at h
  cases hc : check_and_update st (yearOfDayNum date) with
  | none => rw [hc] at h; exact Option.noConfusion h
  | some st1 =>
    rw [hc] at h
    simp only [Option.some.injEq, Prod.mk.injEq] at h
    obtain ⟨rfl, rfl⟩ := h
    exact ⟨rfl, (check_and_update_fields hc).2.2.2.2.2.2⟩

theorem isBusinessDayTest_mono_false {c c' : List Nat} {e : Nat}
    (hsub : ∀ x ∈ c, x ∈ c') (hf : isBusinessDayTest c e = false) :
    isBusinessDayTest c' e = false := by
  unfold isBusinessDayTest at hf ⊢
  by_cases hmem : e ∈ c
  · simp [hsub e hmem]
  · by_cases hwd : weekday e < 5
    · simp [hmem, hwd] at hf
    · simp [hwd]

theorem prev_walk_cache_mono {fuel : Nat} {st : BDState} {d : Nat} {st' : BDState} {r : Nat}
    (h : get_previous_business_day fuel st d = some (st', r)) :
    ∀ x ∈ st.cache, x ∈ st'.cache := by
  induction fuel generalizing st d with
  | zero => exact Option.noConfusion h
  | succ fuel ih =>
    simp only [get_previous_business_day] at h
    cases hb : is_business_day st (d - 1) with
    | none => rw [hb] at h; exact Option.noConfusion h
    | some p =>
      obtain ⟨st1, b⟩ := p
      rw [hb] at h
      cases b with
      | true =>
        simp only [Option.some.injEq, Prod.mk.injEq, if_true] at h
        obtain ⟨rfl, rfl⟩ := h
        exact (is_business_day_spec hb).2
      | false =>
        simp only [Bool.false_eq_true, if_false] at h
        exact fun x hx => ih h x ((is_business_day_spec hb).2 x hx)

theorem prev_walk_spec {fuel : Nat} {st : BDState} {d : Nat} {st' : BDState} {r : Nat}
    (hfd : fuel ≤ d) (h : get_previous_business_day fuel st d = some (st', r)) :
    r < d ∧ isBusinessDayTest st'.cache r = true ∧
      ∀ e, r < e → e < d → isBusinessDayTest st'.cache e = false := by
  induction fuel generalizing st d with
  | zero => exact Option.noConfusion h
  | succ fuel ih =>
    simp only [get_previous_business_day] at h
    cases hb : is_business_day st (d - 1) with
    | none => rw [hb] at h; exact Option.noConfusion h
    | some p =>
      obtain ⟨st1, b⟩ := p
      rw [hb] at h
      cases b with
      | true =>
        simp only [Option.some.injEq, Prod.mk.injEq, if_true] at h
        obtain ⟨rfl, rfl⟩ := h
        refine ⟨by omega, ((is_business_day_spec hb).1).symm, ?_⟩
        intro e he1 he2
        omega
      | false =>
        simp only [Bool.false_eq_true, if_false] at h
        have hrec := @ih st1 (d - 1) (by omega) h
        refine ⟨by omega, hrec.2.1, ?_⟩
        intro e he1 he2
        by_cases hed : e = d - 1
        · subst hed
          have hfalse : isBusinessDayTest st1.cache (d - 1) = false :=
            ((is_business_day_spec hb).1).symm
          exact isBusinessDayTest_mono_false (prev_walk_cache_mono h) hfalse
        · exact hrec.2.2 e he1 (by omega)

/-! Claim theorems. -/

/-- C1: for every date `d` (after the cache has been grown for the year of
`d` by the `__check_and_update` call inside `is_business_day`), the returned
boolean is true iff the weekday index of `d` is 0-4 and `d` is not in the
grown excluded-date cache; in particular the result is false for every
Saturday or Sunday (weekday index 5 or 6). -/
theorem claim_C1_is_business_day_iff :
    ∀ (st : BDState) (date : Nat) (st' : BDState) (b : Bool),
      is_business_day st date = some (st', b) →
      ((b = true ↔ (date ∉ st'.cache ∧ weekday date < 5)) ∧
       (5 ≤ weekday date → b = false)) := by
  intro st date st' b h
  obtain ⟨hb, -⟩ := is_business_day_spec h
  subst hb
  constructor
  · simp [isBusinessDayTest]
  · intro h5
    simp [isBusinessDayTest, show ¬ weekday date < 5 by omega]

/-- Witness for C1: 2023-01-02 (a Monday, but the cached effective date of
the Sunday New Year holiday) queried in the scenario state yields `false`. -/
theorem claim_C1_witness :
    ((false = true) ↔
      (daysFromCivil 2023 1 2 ∉ scenarioSt.cache ∧ weekday (daysFromCivil 2023 1 2) < 5)) ∧
    (5 ≤ weekday (daysFromCivil 2023 1 2) → false = false) :=
  claim_C1_is_business_day_iff scenarioSt (daysFromCivil 2023 1 2) scenarioSt false (by decide)

/-- C2 (amended): after `init` and any sequence of `__check_and_update`
(`ensure_year`) calls, every effective date of every active-locale definition for
every year of `[min_year, max_year]` is in the excluded-date cache, and
every cached date is such an effective date for some year of the span. The
original second conjunct of C2 — that the year of a cached date never lies outside
the span — is false (see the counterexample): an effective date computed for
a span year may itself fall in the following year. -/
theorem claim_C2_amended_cache_invariant :
    ∀ (source : List Holiday) (locale : String) (year todayYear : Nat)
      (st0 : BDState) (years : List Nat) (st : BDState),
      init source locale year todayYear = some st0 →
      ensureYears st0 years = some st →
      SpanComplete st ∧ CacheSound st := by
  intro source locale year todayYear st0 years st h0 h
  have hinit := init_spec h0
  exact ensureYears_inv ⟨hinit.2.2.2.2.1, hinit.2.2.2.2.2⟩ h

/-- Witness for C2 (amended): the scenario state after `init` and an
`ensure_year(2022)` call satisfies both invariant halves. -/
theorem claim_C2_witness :
    SpanComplete ((ensureYears scenarioSt [2022]).getD default) ∧
    CacheSound ((ensureYears scenarioSt [2022]).getD default) :=
  claim_C2_amended_cache_invariant scenarioSource "en_US" 2023 2023 scenarioSt [2022]
    ((ensureYears scenarioSt [2022]).getD default) (by decide) (by decide)

/-- Counterexample to C2 as stated: with the single record
`"NY,RECUR,1231,en_US"`, after `init` for 2023 (and an `ensure_year(2023)`
no-op) the span is `[2023, 2023]` yet the cache contains 2024-01-01 — the
Monday-shifted effective date of Sunday 2023-12-31 — whose year 2024 lies
outside the span, refuting "no date whose year lies outside
`[min_year, max_year]` is present in excluded_dates". -/
theorem claim_C2_counterexample :
    init rolloverSource "en_US" 2023 2023 = some rolloverSt ∧
    ensureYears rolloverSt [2023] = some rolloverSt ∧
    rolloverSt.min_year = 2023 ∧ rolloverSt.max_year = 2023 ∧
    daysFromCivil 2023 12 31 + 1 ∈ rolloverSt.cache ∧
    yearOfDayNum (daysFromCivil 2023 12 31 + 1) = 2024 := by
  decide

/-- C3: `get_effective_date` equals `get_actual_date` advanced by exactly one
day when the actual date falls on Sunday (weekday 6) and unchanged otherwise
(Saturday included), and the effective date is never a Sunday. Stated for
every definition and year whose actual date is computed without error. -/
theorem claim_C3_effective_date_adjustment :
    ∀ (h : Holiday) (y d : Nat),
      h.get_actual_date y = some d →
      (h.get_effective_date y = some (if weekday d = 6 then d + 1 else d) ∧
       ∀ e, h.get_effective_date y = some e → weekday e ≠ 6) := by
  intro h y d ha
  unfold Holiday.get_actual_date Holiday.get_date at ha
  cases hraw : h.raw_date y with
  | none => rw [hraw] at ha; exact Option.noConfusion ha
  | some d0 =>
    rw [hraw] at ha
    simp only [Option.map_some', Bool.false_eq_true, if_false, Option.some.injEq] at ha
    subst d0
    constructor
    · unfold Holiday.get_effective_date Holiday.get_date
      rw [hraw]
      simp
    · intro e he
      unfold Holiday.get_effective_date Holiday.get_date at he
      rw [hraw] at he
      simp only [Option.map_some', if_true, Option.some.injEq] at he
      subst he
      by_cases hw : weekday d = 6
      · rw [if_pos hw, weekday_succ, hw]
        omega
      · rw [if_neg hw]
        exact hw

/-- Witness for C3: the New Year record in 2023, whose actual date
2023-01-01 is a Sunday. -/
theorem claim_C3_witness :
    (Holiday.get_effective_date { name := "New Year", type_cd := "RECUR", value := "0101", locale := "en_US" } 2023 =
      some (if weekday (daysFromCivil 2023 1 1) = 6 then daysFromCivil 2023 1 1 + 1 else daysFromCivil 2023 1 1)) ∧
    ∀ e, Holiday.get_effective_date { name := "New Year", type_cd := "RECUR", value := "0101", locale := "en_US" } 2023 =
      some e → weekday e ≠ 6 :=
  claim_C3_effective_date_adjustment
    { name := "New Year", type_cd := "RECUR", value := "0101", locale := "en_US" }
    2023 (daysFromCivil 2023 1 1) (by decide)

/-- C4: with the single record `"New Year,RECUR,0101,en_US"` (the scenario
source, loaded by `init` for locale `en_US` and year 2023), `get_holidays`
for 2023 returns exactly the pair (2023-01-01, "New Year") and
`get_holiday_effective_dates` for 2023 returns exactly 2023-01-02 (January 1
2023 is a Sunday, so the effective date shifts to Monday, which still falls
inside 2023 and therefore passes the effective-year filter). -/
theorem claim_C4_new_year_scenario :
    init scenarioSource "en_US" 2023 2023 = some scenarioSt ∧
    get_holidays scenarioSt 2023 =
      some (scenarioSt, [(daysFromCivil 2023 1 1, "New Year")]) ∧
    get_holiday_effective_dates scenarioSt 2023 =
      some (scenarioSt, [daysFromCivil 2023 1 2]) := by
  decide

/-- C5: cache growth is monotonic. After `ensure_year(Y1)` and then
`ensure_year(Y2)` with `Y2` outside the intermediate span, the new span
contains the old span and `Y2`, and every previously cached date is still
cached. -/
theorem claim_C5_monotonic_growth :
    ∀ (st : BDState) (y1 y2 : Nat) (st1 st2 : BDState),
      check_and_update st y1 = some st1 →
      check_and_update st1 y2 = some st2 →
      ¬ (st1.min_year ≤ y2 ∧ y2 ≤ st1.max_year) →
      (st2.min_year ≤ st1.min_year ∧ st1.max_year ≤ st2.max_year ∧
       st2.min_year ≤ y2 ∧ y2 ≤ st2.max_year ∧
       ∀ d ∈ st1.cache, d ∈ st2.cache) := by
  intro st y1 y2 st1 st2 h1 h2 hout
  obtain ⟨g1, g2, g3, g4, -, -, g5⟩ := check_and_update_fields h2
  exact ⟨g1, g2, g3, g4, g5⟩

/-- Witness for C5: growing the scenario span `[2023, 2023]` to 2025. -/
theorem claim_C5_witness :
    scenarioGrownSt.min_year ≤ scenarioSt.min_year ∧
    scenarioSt.max_year ≤ scenarioGrownSt.max_year ∧
    scenarioGrownSt.min_year ≤ 2025 ∧ 2025 ≤ scenarioGrownSt.max_year ∧
    ∀ d ∈ scenarioSt.cache, d ∈ scenarioGrownSt.cache :=
  claim_C5_monotonic_growth scenarioSt 2023 2025 scenarioSt scenarioGrownSt
    (by decide) (by decide) (by decide)

/-- C6: `get_business_days(start, end)` returns exactly the dates `d` with
`start <= d <= end`, weekday index 0-4, and not in the (post-growth)
excluded cache, in ascending order; a start after the end enumerates
nothing and yields the empty list rather than an error. In particular the
result never contains a Saturday, a Sunday, or an excluded date. -/
theorem claim_C6_business_days_range :
    ∀ (st : BDState) (start_date end_date : Nat) (st' : BDState) (l : List Nat),
      get_business_days st start_date end_date = some (st', l) →
      ((∀ d : Nat, d ∈ l ↔
         (start_date ≤ d ∧ d ≤ end_date ∧ weekday d < 5 ∧ d ∉ st'.cache)) ∧
       List.Sorted (· ≤ ·) l ∧
       (end_date < start_date → l = [])) := by
  intro st start_date end_date st' l h
  unfold get_business_days at h
  cases h1 : check_and_update st (yearOfDayNum start_date) with
  | none => rw [h1] at h; exact Option.noConfusion h
  | some st1 =>
    simp only [h1] at h
    cases h2 : check_and_update st1 (yearOfDayNum end_date) with
    | none => rw [h2] at h; exact Option.noConfusion h
    | some st2 =>
      simp only [h2, Option.some.injEq, Prod.mk.injEq] at h
      obtain ⟨rfl, rfl⟩ := h
      have hmem : ∀ d : Nat,
          d ∈ ((((List.range ((end_date : Int) - (start_date : Int) + 1).toNat).map
              (fun s => start_date + s)).filter fun d => decide (weekday d < 5)).filter
                fun d => !decide (d ∈ st2.cache)).dedup.insertionSort (· ≤ ·) ↔
          (start_date ≤ d ∧ d ≤ end_date ∧ weekday d < 5 ∧ d ∉ st2.cache) := by
        intro d
        simp only [List.mem_insertionSort, List.mem_dedup, List.mem_filter, List.mem_map,
          List.mem_range, Bool.not_eq_true', decide_eq_false_iff_not, decide_eq_true_eq]
        rw [and_assoc, mem_dayRange, and_assoc]
      refine ⟨hmem, List.sorted_insertionSort _ _, ?_⟩
      intro hlt
      rw [List.eq_nil_iff_forall_not_mem]
      intro d hd
      have := (hmem d).mp hd
      omega

/-- Witness for C6: the range 2022-12-28 .. 2023-01-03 in the scenario state
(the result keeps Wed 28, Thu 29, Fri 30 and Tue Jan 3, dropping the
weekend and the cached holiday Monday Jan 2). -/
theorem claim_C6_witness :
    (∀ d : Nat, d ∈ scenarioRangeResult.2 ↔
      (daysFromCivil 2022 12 28 ≤ d ∧ d ≤ daysFromCivil 2023 1 3 ∧
       weekday d < 5 ∧ d ∉ scenarioRangeResult.1.cache)) ∧
    List.Sorted (· ≤ ·) scenarioRangeResult.2 ∧
    (daysFromCivil 2023 1 3 < daysFromCivil 2022 12 28 → scenarioRangeResult.2 = []) :=
  claim_C6_business_days_range scenarioSt (daysFromCivil 2022 12 28)
    (daysFromCivil 2023 1 3) scenarioRangeResult.1 scenarioRangeResult.2 (by decide)

/-- C7: the backward walk of `get_previous_business_day` returns the latest
date strictly earlier than its argument passing the business-day test
(relative to the final grown cache), and on the scenario source
`get_previous_business_day(2023-01-02)` returns 2022-12-30, skipping the
holiday Monday, Sunday Jan 1 and Saturday Dec 31. The `fuel ≤ d` bound
reflects that real calendar day numbers are astronomically larger than the
handful of steps the walk takes. -/
theorem claim_C7_previous_business_day :
    (∀ (fuel : Nat) (st : BDState) (d : Nat) (st' : BDState) (r : Nat),
        fuel ≤ d →
        get_previous_business_day fuel st d = some (st', r) →
        (r < d ∧ isBusinessDayTest st'.cache r = true ∧
         ∀ e, r < e → e < d → isBusinessDayTest st'.cache e = false)) ∧
    get_previous_business_day 4 scenarioSt (daysFromCivil 2023 1 2) =
      some (scenarioWalkSt, daysFromCivil 2022 12 30) :=
  ⟨fun _ _ _ _ _ hfd h => prev_walk_spec hfd h, by decide⟩

/-- Witness for C7: the scenario walk from 2023-01-02 lands on 2022-12-30,
which passes the business-day test while every skipped date fails it. -/
theorem claim_C7_witness :
    daysFromCivil 2022 12 30 < daysFromCivil 2023 1 2 ∧
    isBusinessDayTest scenarioWalkSt.cache (daysFromCivil 2022 12 30) = true ∧
    ∀ e, daysFromCivil 2022 12 30 < e → e < daysFromCivil 2023 1 2 →
      isBusinessDayTest scenarioWalkSt.cache e = false :=
  claim_C7_previous_business_day.1 4 scenarioSt (daysFromCivil 2023 1 2)
    scenarioWalkSt (daysFromCivil 2022 12 30) (by decide) (by decide)

/-- Counterexample to C8 as stated: `_Holiday.__init__` stores `raw_value`
unvalidated and cannot raise, so this malformed `RECUR` record (month 13) is
a successfully constructed definition; yet its `get_actual_date` and
`get_effective_date` fail at query time (the `strptime` of "20231332"
raises), refuting both that a `ParseError` occurs at construction time and
that queries never fail for a successfully constructed definition. -/
theorem claim_C8_counterexample :
    ({ name := "X", type_cd := "RECUR", value := "1332", locale := "en_US" } : Holiday).get_actual_date 2023 = none ∧
    ({ name := "X", type_cd := "RECUR", value := "1332", locale := "en_US" } : Holiday).get_effective_date 2023 = none := by
  decide

/-- C8 (amended): construction never fails (the raw value is stored
unvalidated); a malformed raw value instead surfaces as an error at query
time — `get_actual_date` fails exactly when the `strptime` of the stored
(`ONCE`) or combined (`RECUR`, year-dependent) string fails, and
`get_effective_date` fails exactly when `get_actual_date` does. -/
theorem claim_C8_amended_query_time_errors :
    ∀ (n v l : String) (y : Nat),
      ((Holiday.mk n "ONCE" v l).get_actual_date y = none ↔ strptimeYMD v = none) ∧
      ((Holiday.mk n "RECUR" v l).get_actual_date y = none ↔
        strptimeYMD (toString y ++ v) = none) ∧
      (∀ h : Holiday, (h.get_effective_date y = none ↔ h.get_actual_date y = none)) := by
  intro n v l y
  refine ⟨?_, ?_, ?_⟩
  · simp [Holiday.get_actual_date, Holiday.get_date, Holiday.raw_date, Option.map_eq_none']
  · simp [Holiday.get_actual_date, Holiday.get_date, Holiday.raw_date, Option.map_eq_none']
  · intro h
    simp [Holiday.get_actual_date, Holiday.get_effective_date, Holiday.get_date,
      Option.map_eq_none']

/-- Counterexample to C9 as stated: `init(locale, year)` sets
`min_year = max_year = year` (the argument) and then expands for the current
calendar year, so for `init("en_US", 2020)` with current year 2025 the
resulting bounds are `[2020, 2025]`, not `min_year = max_year = 2025` as the
claim requires for every year argument. -/
theorem claim_C9_counterexample :
    (init scenarioSource "en_US" 2020 2025).map BDState.min_year = some 2020 ∧
    (init scenarioSource "en_US" 2020 2025).map BDState.max_year = some 2025 ∧
    (2020 : Nat) ≠ 2025 := by
  decide

/-- C9 (amended): after `init(locale, year)` completes with current calendar
year `todayYear`, the span is `[min(todayYear, year), max(todayYear, year)]`
(which collapses to the current year exactly when the year argument is the
current year, e.g. the default), the active locale is the given one, the
holiday list is the freshly loaded source (old list and cache cleared), and
the cache is exactly one full expansion of that span: complete and sound. -/
theorem claim_C9_amended_init_state :
    ∀ (source : List Holiday) (locale : String) (year todayYear : Nat) (st : BDState),
      init source locale year todayYear = some st →
      (st.min_year = min todayYear year ∧ st.max_year = max todayYear year ∧
       st.current_locale = locale ∧ st.holidays = source ∧
       SpanComplete st ∧ CacheSound st) := by
  intro source locale year todayYear st h
  have hs := init_spec h
  exact ⟨hs.1, hs.2.1, hs.2.2.2.1, hs.2.2.1, hs.2.2.2.2.1, hs.2.2.2.2.2⟩

/-- Witness for C9 (amended): the scenario initialization, where the year
argument equals the current year 2023. -/
theorem claim_C9_witness :
    scenarioSt.min_year = min 2023 2023 ∧ scenarioSt.max_year = max 2023 2023 ∧
    scenarioSt.current_locale = "en_US" ∧ scenarioSt.holidays = scenarioSource ∧
    SpanComplete scenarioSt ∧ CacheSound scenarioSt :=
  claim_C9_amended_init_state scenarioSource "en_US" 2023 2023 scenarioSt (by decide)

/-- C10: the cache stores midnight `datetime` values, and Python equality
never identifies a plain `date` (or a `datetime` with a nonzero time of
day) with a midnight `datetime`; hence for such a value the membership test
of `is_business_day` always fails and the result reduces to the weekday
check alone — true on any weekday, even on the calendar day of a cached
holiday effective date. -/
theorem claim_C10_date_datetime_mismatch :
    ∀ (cache : List PyDateVal) (v : PyDateVal),
      (∀ c ∈ cache, ∃ d, c = midnightDatetime d) →
      (v.isDatetime = false ∨ v.secs ≠ 0) →
      ((cache.any fun c => pyEq v c) = false ∧
       is_business_day_val cache v = decide (weekday v.day < 5)) := by
  intro cache v hcache hv
  have hany : (cache.any fun c => pyEq v c) = false := by
    rw [List.any_eq_false]
    intro c hc
    obtain ⟨d, rfl⟩ := hcache c hc
    rcases hv with h | h
    · simp [pyEq, midnightDatetime, h]
    · simp [pyEq, midnightDatetime, h]
  refine ⟨hany, ?_⟩
  simp [is_business_day_val, hany]

/-- Witness for C10: the plain date value for 2023-01-02 (the holiday
Monday, whose midnight datetime is in the scenario cache) still passes
`is_business_day`, because the plain date never equals the cached datetime. -/
theorem claim_C10_witness :
    ((scenarioSt.cache.map midnightDatetime).any fun c =>
        pyEq { isDatetime := false, day := daysFromCivil 2023 1 2, secs := 0 } c) = false ∧
    is_business_day_val (scenarioSt.cache.map midnightDatetime)
        { isDatetime := false, day := daysFromCivil 2023 1 2, secs := 0 } =
      decide (weekday (daysFromCivil 2023 1 2) < 5) :=
  claim_C10_date_datetime_mismatch (scenarioSt.cache.map midnightDatetime)
    { isDatetime := false, day := daysFromCivil 2023 1 2, secs := 0 }
    (fun c hc => by
      obtain ⟨d, _, rfl⟩ := List.mem_map.mp hc
      exact ⟨d, rfl⟩)
    (Or.inl rfl)
